import Mathlib

/-!
# Screen director and fade transition of `raylib_game.cpp`

A shallow embedding of the screen state machine of `src/src/raylib_game.cpp`:
the global variables become the fields of `Game`, every function of the file
becomes a function on `Game`, and the calls made into the screen modules and
into the drawing library are returned as a list of `Call`s, in call order.

Conventions of the embedding.

* `transAlpha` is a C `float`, an IEEE-754 binary32 number.  A binary32 value
  is held as the integer count of the units of 2^-149 it consists of (every
  finite binary32 value is such a multiple), `f32_round` is rounding to
  nearest with ties to even, an addition or subtraction is the rounded exact
  result and a literal such as `0.05f` is the rounded decimal.
* `transFromScreen` is an `int` in the source, assigned from a `GameScreen`
  and compared with the `case` labels of a `switch`.  The numbering of the
  enumeration lives in `screens.h`; it is the parameter `enc` of the functions
  that convert.
* The value returned by the current screen's `finish_*_screen` function during
  one frame is the input `code` of `update_draw_frame`.
-/

namespace RaylibGame

/-- Modelled from the spec: the enumeration `GameScreen` is declared in
`screens.h`, which is not among the sources.  Its members are the six labels
that `raylib_game.cpp` uses, the spec's
`ScreenId` over Unknown, Logo, Title, Options, Gameplay, Ending. -/
inductive GameScreen
  | UNKNOWN
  | LOGO
  | TITLE
  | OPTIONS
  | GAMEPLAY
  | ENDING
  deriving DecidableEq, Repr

open GameScreen

/-- The number of binary digits of `n`, for `n` below `2 ^ fuel`. -/
def bit_length : Nat → Nat → Nat
  | 0, _ => 0
  | fuel + 1, n => if n = 0 then 0 else bit_length fuel (n / 2) + 1

/-- The binary32 value nearest to the rational `num / den`, ties going to the
even significand, as a count of units of 2^-149.  The magnitude in units is
`N / den`; one of at most 24 binary digits is rounded to a whole unit (the
subnormal spacing) and a longer one to 24 significant digits, `sh` being the
number of digits dropped.  The kept digits are `q`, and the remainder `R` is
compared with half of the spacing `P` (both in units of `1 / den`).  Overflow
to infinity, for magnitudes from 2^128 on, is left out: no value of the
program comes near it. -/
def f32_round (num : Int) (den : Nat) : Int :=
  let N := num.natAbs * 2 ^ 149
  let sh := bit_length 300 (N / den) - 24
  let P := den * 2 ^ sh
  let q := N / P
  let R := N % P
  let q1 := if 2 * R > P ∨ (2 * R = P ∧ q % 2 = 1) then q + 1 else q
  (if num < 0 then -1 else 1) * ((q1 * 2 ^ sh : Nat) : Int)

/-- The binary32 sum of two binary32 values: the exact sum, rounded. -/
def f32_add (a b : Int) : Int :=
  f32_round (a + b) (2 ^ 149)

/-- The binary32 difference of two binary32 values: the exact difference, rounded. -/
def f32_sub (a b : Int) : Int :=
  f32_round (a - b) (2 ^ 149)

/-- The rational number that a count of units stands for. -/
def f32_value (a : Int) : ℚ :=
  (a : ℚ) / 2 ^ 149

/-- The global variables of `raylib_game.cpp` that the director and the
transition use (lines 26 and 38-42); `transAlpha` is a binary32 value. -/
structure Game where
  currentScreen : GameScreen
  transAlpha : Int
  onTransition : Bool
  transFadeOut : Bool
  transFromScreen : Int
  transToScreen : GameScreen
  deriving DecidableEq

/-- The static initialisers of the globals (lines 26, 38-42). -/
def globals : Game where
  currentScreen := LOGO
  transAlpha := 0
  onTransition := false
  transFadeOut := false
  transFromScreen := -1
  transToScreen := UNKNOWN

/-- A call that leaves `raylib_game.cpp`: into one of the five screen modules
or into the library. -/
inductive Call
  | init_screen (s : GameScreen)
  | update_screen (s : GameScreen)
  | finish_screen (s : GameScreen)
  | draw_screen (s : GameScreen)
  | unload_screen (s : GameScreen)
  | UpdateMusicStream
  | BeginDrawing
  | ClearBackground
  | DrawRectangle (alpha : Int)
  | EndDrawing
  deriving DecidableEq

/-- The `switch` that unloads a screen, on a `GameScreen` (lines 124-132);
`default: break` makes no call. -/
def unload_switch : GameScreen → List Call
  | LOGO => [Call.unload_screen LOGO]
  | TITLE => [Call.unload_screen TITLE]
  | OPTIONS => [Call.unload_screen OPTIONS]
  | GAMEPLAY => [Call.unload_screen GAMEPLAY]
  | ENDING => [Call.unload_screen ENDING]
  | UNKNOWN => []

/-- The `switch` that initialises a screen (lines 135-143 and 183-191). -/
def init_switch : GameScreen → List Call
  | LOGO => [Call.init_screen LOGO]
  | TITLE => [Call.init_screen TITLE]
  | OPTIONS => [Call.init_screen OPTIONS]
  | GAMEPLAY => [Call.init_screen GAMEPLAY]
  | ENDING => [Call.init_screen ENDING]
  | UNKNOWN => []

/-- The `switch` that draws the current screen (lines 280-288). -/
def draw_switch : GameScreen → List Call
  | LOGO => [Call.draw_screen LOGO]
  | TITLE => [Call.draw_screen TITLE]
  | OPTIONS => [Call.draw_screen OPTIONS]
  | GAMEPLAY => [Call.draw_screen GAMEPLAY]
  | ENDING => [Call.draw_screen ENDING]
  | UNKNOWN => []

/-- The `switch (transFromScreen)` of lines 172-180: the subject is an `int`,
compared with the five `case` labels under the numbering `enc`. -/
def unload_switch_int (enc : GameScreen → Int) (n : Int) : List Call :=
  if n = enc LOGO then [Call.unload_screen LOGO]
  else if n = enc TITLE then [Call.unload_screen TITLE]
  else if n = enc OPTIONS then [Call.unload_screen OPTIONS]
  else if n = enc GAMEPLAY then [Call.unload_screen GAMEPLAY]
  else if n = enc ENDING then [Call.unload_screen ENDING]
  else []

/-- `jump_to_screen` (lines 121-146). -/
def jump_to_screen (s : Game) (screen : GameScreen) : Game × List Call :=
  ({ s with currentScreen := screen },
   unload_switch s.currentScreen ++ init_switch screen)

/-- `fade_to_screen` (lines 149-156). -/
def fade_to_screen (enc : GameScreen → Int) (s : Game) (screen : GameScreen) : Game :=
  { s with
    onTransition := true
    transFadeOut := false
    transFromScreen := enc s.currentScreen
    transToScreen := screen
    transAlpha := 0 }

/-- `update_transition` (lines 159-212), in binary32: `0.05f` is
`f32_round 5 100`, `1.01f` is `f32_round 101 100`, `1.0f` is `f32_round 1 1`,
`0.02f` is `f32_round 2 100` and `-0.01f` is the negated `f32_round 1 100`. -/
def update_transition (enc : GameScreen → Int) (s : Game) : Game × List Call :=
  if !s.transFadeOut then
    let a := f32_add s.transAlpha (f32_round 5 100)
    if a > f32_round 101 100 then
      ({ s with
         transAlpha := f32_round 1 1
         currentScreen := s.transToScreen
         transFadeOut := true },
       unload_switch_int enc s.transFromScreen ++ init_switch s.transToScreen)
    else
      ({ s with transAlpha := a }, [])
  else
    let a := f32_sub s.transAlpha (f32_round 2 100)
    if a < -(f32_round 1 100) then
      ({ s with
         transAlpha := 0
         transFadeOut := false
         onTransition := false
         transFromScreen := -1
         transToScreen := UNKNOWN },
       [])
    else
      ({ s with transAlpha := a }, [])

/-- `draw_transition` (lines 215-218): one rectangle over the whole window,
black faded by `transAlpha`. -/
def draw_transition (s : Game) : List Call :=
  [Call.DrawRectangle s.transAlpha]

/-- The update half of `update_draw_frame` without the music stream
(lines 227-271); `code` is what the current screen's finish function returns
in this frame. -/
def frame_update (enc : GameScreen → Int) (s : Game) (code : Int) : Game × List Call :=
  if !s.onTransition then
    match s.currentScreen with
    | LOGO =>
      if code ≠ 0 then
        (fade_to_screen enc s TITLE, [Call.update_screen LOGO, Call.finish_screen LOGO])
      else (s, [Call.update_screen LOGO, Call.finish_screen LOGO])
    | TITLE =>
      if code = 1 then
        (fade_to_screen enc s OPTIONS, [Call.update_screen TITLE, Call.finish_screen TITLE])
      else if code = 2 then
        (fade_to_screen enc s GAMEPLAY,
         [Call.update_screen TITLE, Call.finish_screen TITLE, Call.finish_screen TITLE])
      else
        (s, [Call.update_screen TITLE, Call.finish_screen TITLE, Call.finish_screen TITLE])
    | OPTIONS =>
      if code ≠ 0 then
        (fade_to_screen enc s TITLE, [Call.update_screen OPTIONS, Call.finish_screen OPTIONS])
      else (s, [Call.update_screen OPTIONS, Call.finish_screen OPTIONS])
    | GAMEPLAY =>
      if code = 1 then
        (fade_to_screen enc s ENDING, [Call.update_screen GAMEPLAY, Call.finish_screen GAMEPLAY])
      else (s, [Call.update_screen GAMEPLAY, Call.finish_screen GAMEPLAY])
    | ENDING =>
      if code = 1 then
        (fade_to_screen enc s TITLE, [Call.update_screen ENDING, Call.finish_screen ENDING])
      else (s, [Call.update_screen ENDING, Call.finish_screen ENDING])
    | UNKNOWN => (s, [])
  else update_transition enc s

/-- The draw half of `update_draw_frame` (lines 276-295); it reads the state
and does not change it. -/
def frame_draw (s : Game) : List Call :=
  [Call.BeginDrawing, Call.ClearBackground] ++ draw_switch s.currentScreen
    ++ (if s.onTransition then draw_transition s else []) ++ [Call.EndDrawing]

/-- `update_draw_frame` (lines 221-297). -/
def update_draw_frame (enc : GameScreen → Int) (s : Game) (code : Int) : Game × List Call :=
  let r := frame_update enc s code
  (r.1, [Call.UpdateMusicStream] ++ r.2 ++ frame_draw r.1)

/-- The setup of the first screen in `main` (lines 74-76). -/
def main_setup : Game × List Call :=
  ({ globals with currentScreen := LOGO }, [Call.init_screen LOGO])

/-- The main loop of `main` (lines 85-88) run for one frame per finish code
of `codes`: the state reached. -/
def run_frames (enc : GameScreen → Int) (s : Game) : List Int → Game
  | [] => s
  | code :: codes => run_frames enc (update_draw_frame enc s code).1 codes

/-- A number of successive calls of `update_transition`: the state reached. -/
def transition_ticks (enc : GameScreen → Int) (s : Game) : Nat → Game
  | 0 => s
  | n + 1 => transition_ticks enc (update_transition enc s).1 n

/-- The screens initialised and not yet unloaded, after the calls of a trace:
an init adds its screen, an unload removes one occurrence of its screen. -/
def loaded_after (loaded : List GameScreen) : List Call → List GameScreen
  | [] => loaded
  | Call.init_screen x :: cs => loaded_after (x :: loaded) cs
  | Call.unload_screen x :: cs => loaded_after (loaded.erase x) cs
  | _ :: cs => loaded_after loaded cs

/-- The main loop together with the bookkeeping of the loaded screens. -/
def run_frames_loaded (enc : GameScreen → Int) (s : Game) (loaded : List GameScreen) :
    List Int → Game × List GameScreen
  | [] => (s, loaded)
  | code :: codes =>
    let r := update_draw_frame enc s code
    run_frames_loaded enc r.1 (loaded_after loaded r.2) codes

/-- A sample numbering of the labels, used to instantiate the results at
concrete states: `UNKNOWN` is -1, the value `transFromScreen` is reset to, and
the five screens count up from 0. -/
def enum_codes : GameScreen → Int
  | UNKNOWN => -1
  | LOGO => 0
  | TITLE => 1
  | OPTIONS => 2
  | GAMEPLAY => 3
  | ENDING => 4

/-- The five `case` labels of a `switch` are pairwise different integers. -/
def CaseLabelsDistinct (enc : GameScreen → Int) : Prop :=
  ∀ a b : GameScreen, a ≠ UNKNOWN → b ≠ UNKNOWN → enc a = enc b → a = b

/-- The table of the spec (section 4.1): the target screen that a finish code
selects on each screen, if any. -/
def transition_table : GameScreen → Int → Option GameScreen
  | LOGO, c => if c ≠ 0 then some TITLE else none
  | TITLE, c => if c = 1 then some OPTIONS else if c = 2 then some GAMEPLAY else none
  | OPTIONS, c => if c ≠ 0 then some TITLE else none
  | GAMEPLAY, c => if c = 1 then some ENDING else none
  | ENDING, c => if c = 1 then some TITLE else none
  | UNKNOWN, _ => none

/-- Alpha after `k` binary32 additions of `0.05f` to `0.0f`. -/
def fade_in_alpha : Nat → Int
  | 0 => 0
  | k + 1 => f32_add (fade_in_alpha k) (f32_round 5 100)

/-- Alpha after `k` binary32 subtractions of `0.02f` from `1.0f`. -/
def fade_out_alpha : Nat → Int
  | 0 => f32_round 1 1
  | k + 1 => f32_sub (fade_out_alpha k) (f32_round 2 100)

/-- The values alpha takes in a run: one of the first 21 values of the fade-in
ramp while fading in, one of the first 51 values of the fade-out ramp while
fading out. -/
def OnRamp (s : Game) : Prop :=
  if s.transFadeOut then ∃ k : Nat, k ≤ 50 ∧ s.transAlpha = fade_out_alpha k
  else ∃ k : Nat, k ≤ 20 ∧ s.transAlpha = fade_in_alpha k

/-- The idle condition of the spec: without an active transition alpha is 0
and both ends are cleared. -/
def IdleClear (s : Game) : Prop :=
  s.onTransition = false →
    s.transAlpha = 0 ∧ s.transFromScreen = -1 ∧ s.transToScreen = UNKNOWN

/-- The bookkeeping invariant of the loop: the one loaded screen is the
current one, which is a real screen, and a transition that is fading in
remembers the current screen as its origin and has a real screen as target. -/
def OneLoaded (enc : GameScreen → Int) (s : Game) (loaded : List GameScreen) : Prop :=
  loaded = [s.currentScreen] ∧ s.currentScreen ≠ UNKNOWN ∧
    (s.onTransition = true → s.transFadeOut = false →
      s.transFromScreen = enc s.currentScreen ∧ s.transToScreen ≠ UNKNOWN)

/-- A state in which a transition is in flight (fading out of the swap from
the logo to the title). -/
def in_flight_sample : Game where
  currentScreen := TITLE
  transAlpha := f32_round 1 1
  onTransition := true
  transFadeOut := true
  transFromScreen := enum_codes LOGO
  transToScreen := TITLE

/-- The title screen showing, no transition. -/
def title_sample : Game :=
  { globals with currentScreen := TITLE }

/-- A state whose current screen is the sentinel. -/
def unknown_sample : Game :=
  { globals with currentScreen := UNKNOWN }

/-! ## Auxiliary lemmas -/

theorem unload_switch_int_label (enc : GameScreen → Int) (hd : CaseLabelsDistinct enc)
    (f : GameScreen) (hf : f ≠ UNKNOWN) :
    unload_switch_int enc (enc f) = [Call.unload_screen f] := by
  have key : ∀ b : GameScreen, b ≠ UNKNOWN → f ≠ b → enc f ≠ enc b :=
    fun b hb hne he => hne (hd f b hf hb he)
  unfold unload_switch_int
  cases f
  · exact absurd rfl hf
  all_goals simp [key]

theorem init_switch_label (t : GameScreen) (ht : t ≠ UNKNOWN) :
    init_switch t = [Call.init_screen t] := by
  cases t
  · exact absurd rfl ht
  all_goals rfl

theorem unload_switch_label (t : GameScreen) (ht : t ≠ UNKNOWN) :
    unload_switch t = [Call.unload_screen t] := by
  cases t
  · exact absurd rfl ht
  all_goals rfl

theorem enum_codes_distinct : CaseLabelsDistinct enum_codes := by
  intro a b _ _
  cases a <;> cases b <;> simp [enum_codes]

theorem frame_update_idle (enc : GameScreen → Int) (s : Game) (code : Int)
    (h : s.onTransition = false) :
    (frame_update enc s code).1 =
      (match transition_table s.currentScreen code with
       | some t => fade_to_screen enc s t
       | none => s) := by
  unfold frame_update
  cases hs : s.currentScreen <;> simp only [h, transition_table] <;> split_ifs <;> simp_all

theorem frame_update_active (enc : GameScreen → Int) (s : Game) (code : Int)
    (h : s.onTransition = true) :
    frame_update enc s code = update_transition enc s := by
  simp [frame_update, h]

theorem update_transition_calls_no_update (enc : GameScreen → Int) (s : Game) (x : GameScreen) :
    Call.update_screen x ∉ (update_transition enc s).2 ∧
      Call.finish_screen x ∉ (update_transition enc s).2 := by
  unfold update_transition unload_switch_int
  cases s.transToScreen <;> simp only [init_switch] <;> split_ifs <;> simp

theorem frame_draw_calls_no_update (s : Game) (x : GameScreen) :
    Call.update_screen x ∉ frame_draw s ∧ Call.finish_screen x ∉ frame_draw s := by
  unfold frame_draw draw_transition
  cases s.currentScreen <;> simp only [draw_switch] <;> split_ifs <;> simp

theorem transition_ticks_succ (enc : GameScreen → Int) (s : Game) (n : Nat) :
    transition_ticks enc s (n + 1) = (update_transition enc (transition_ticks enc s n)).1 := by
  induction n generalizing s with
  | zero => rfl
  | succ n ih =>
    show transition_ticks enc (update_transition enc s).1 (n + 1) = _
    rw [ih]
    rfl

theorem transition_ticks_add (enc : GameScreen → Int) (s : Game) (a b : Nat) :
    transition_ticks enc s (a + b) = transition_ticks enc (transition_ticks enc s a) b := by
  induction a generalizing s with
  | zero => simp [transition_ticks]
  | succ a ih =>
    rw [Nat.succ_add]
    exact ih _

/-! ## The binary32 ramps -/

set_option maxRecDepth 100000

/-- The literals of `update_transition` as significand times power of two:
`0.05f` is 0x3D4CCCCD, `1.01f` is 0x3F8147AE, `1.0f` is 0x3F800000, `0.02f` is
0x3CA3D70A and `0.01f` is 0x3C23D70A. -/
theorem f32_literals :
    f32_round 5 100 = 0xCCCCCD * 2 ^ 121 ∧ f32_round 101 100 = 0x8147AE * 2 ^ 126 ∧
      f32_round 1 1 = 2 ^ 149 ∧ f32_round 2 100 = 0xA3D70A * 2 ^ 120 ∧
      f32_round 1 100 = 0xA3D70A * 2 ^ 119 := by
  decide

theorem fade_in_below :
    ∀ k, k < 20 → ¬ (f32_add (fade_in_alpha k) (f32_round 5 100) > f32_round 101 100) := by
  decide

theorem fade_in_above :
    f32_add (fade_in_alpha 20) (f32_round 5 100) > f32_round 101 100 := by
  decide

theorem fade_out_above :
    ∀ k, k < 50 →
      ¬ (f32_sub (fade_out_alpha k) (f32_round 2 100) < -(f32_round 1 100)) := by
  decide

theorem fade_out_below :
    f32_sub (fade_out_alpha 50) (f32_round 2 100) < -(f32_round 1 100) := by
  decide

theorem fade_in_alpha_mono : ∀ k, k < 20 → fade_in_alpha k ≤ fade_in_alpha (k + 1) := by
  decide

theorem fade_out_alpha_mono : ∀ k, k < 50 → fade_out_alpha (k + 1) ≤ fade_out_alpha k := by
  decide

theorem fade_in_alpha_range :
    ∀ k, k < 21 → 0 ≤ fade_in_alpha k ∧ fade_in_alpha k ≤ 2 ^ 149 + 2 ^ 126 := by
  decide

theorem fade_out_alpha_range :
    ∀ k, k < 51 → 0 ≤ fade_out_alpha k ∧ fade_out_alpha k ≤ 2 ^ 149 := by
  decide

/-- Twenty additions of `0.05f` give 1 + 2^-23, not 1. -/
theorem fade_in_alpha_last : fade_in_alpha 20 = 2 ^ 149 + 2 ^ 126 := by
  decide

/-- Fifty subtractions of `0.02f` from 1 give 13 * 2^-25, not 0. -/
theorem fade_out_alpha_last : fade_out_alpha 50 = 13 * 2 ^ 124 := by
  decide

/-- Fade-in from alpha 0: after `k ≤ 20` calls only alpha has moved, along the
fade-in ramp. -/
theorem fade_in_ticks (enc : GameScreen → Int) (s : Game) (hf : s.transFadeOut = false)
    (h0 : s.transAlpha = 0) (k : Nat) (hk : k ≤ 20) :
    transition_ticks enc s k = { s with transAlpha := fade_in_alpha k } := by
  induction k with
  | zero =>
    cases s
    simp_all [transition_ticks, fade_in_alpha]
  | succ k ih =>
    have hno := fade_in_below k (by omega)
    rw [transition_ticks_succ, ih (by omega)]
    simp only [update_transition, hf, hno]
    simp [fade_in_alpha]

/-- The 21st call of a fade-in from alpha 0 is the swap. -/
theorem fade_in_swap (enc : GameScreen → Int) (s : Game) (hf : s.transFadeOut = false)
    (h0 : s.transAlpha = 0) :
    transition_ticks enc s 21 =
      { s with transAlpha := f32_round 1 1, currentScreen := s.transToScreen,
               transFadeOut := true } := by
  rw [transition_ticks_succ, fade_in_ticks enc s hf h0 20 (le_refl _)]
  simp only [update_transition, hf, fade_in_above]
  simp

/-- Fade-out from alpha 1: after `k ≤ 50` calls only alpha has moved, along the
fade-out ramp. -/
theorem fade_out_ticks (enc : GameScreen → Int) (s : Game) (hf : s.transFadeOut = true)
    (h1 : s.transAlpha = f32_round 1 1) (k : Nat) (hk : k ≤ 50) :
    transition_ticks enc s k = { s with transAlpha := fade_out_alpha k } := by
  induction k with
  | zero =>
    cases s
    simp_all [transition_ticks, fade_out_alpha]
  | succ k ih =>
    have hno := fade_out_above k (by omega)
    rw [transition_ticks_succ, ih (by omega)]
    simp only [update_transition, hf, hno]
    simp [fade_out_alpha]

/-- The 51st call of a fade-out from alpha 1 ends the transition. -/
theorem fade_out_end (enc : GameScreen → Int) (s : Game) (hf : s.transFadeOut = true)
    (h1 : s.transAlpha = f32_round 1 1) :
    transition_ticks enc s 51 =
      { s with transAlpha := 0, transFadeOut := false, onTransition := false,
               transFromScreen := -1, transToScreen := UNKNOWN } := by
  rw [transition_ticks_succ, fade_out_ticks enc s hf h1 50 (le_refl _)]
  simp only [update_transition, hf, fade_out_below]
  simp

theorem run_frames_cons (enc : GameScreen → Int) (s : Game) (c : Int) (cs : List Int) :
    run_frames enc s (c :: cs) = run_frames enc (update_draw_frame enc s c).1 cs :=
  rfl

/-- While the transition stays active the main loop is a run of
`update_transition`, whatever the finish codes. -/
theorem run_frames_eq_ticks (enc : GameScreen → Int) (codes : List Int) (s : Game)
    (h : ∀ k, k < codes.length → (transition_ticks enc s k).onTransition = true) :
    run_frames enc s codes = transition_ticks enc s codes.length := by
  induction codes generalizing s with
  | nil => rfl
  | cons c cs ih =>
    have h0 : s.onTransition = true := h 0 (by simp)
    have hstep : (update_draw_frame enc s c).1 = (update_transition enc s).1 := by
      simp [update_draw_frame, frame_update_active enc s c h0]
    simp only [run_frames, List.length_cons, transition_ticks, hstep]
    apply ih
    intro k hk
    have := h (k + 1) (by simp; omega)
    simpa [transition_ticks] using this

/-- The schedule of a fresh fade: fade-in for 20 calls, swap at the 21st,
fade-out for 50 further calls, end at the 51st. -/
theorem fade_schedule (enc : GameScreen → Int) (s : Game) (target : GameScreen) :
    (∀ k : Nat, k < 21 →
      (transition_ticks enc (fade_to_screen enc s target) k).transFadeOut = false ∧
      (transition_ticks enc (fade_to_screen enc s target) k).onTransition = true ∧
      (transition_ticks enc (fade_to_screen enc s target) k).currentScreen = s.currentScreen) ∧
    ((transition_ticks enc (fade_to_screen enc s target) 21).transFadeOut = true ∧
      (transition_ticks enc (fade_to_screen enc s target) 21).transAlpha = f32_round 1 1 ∧
      (transition_ticks enc (fade_to_screen enc s target) 21).currentScreen = target ∧
      (transition_ticks enc (fade_to_screen enc s target) 21).onTransition = true) ∧
    (∀ k : Nat, k < 51 →
      (transition_ticks enc (fade_to_screen enc s target) (21 + k)).onTransition = true ∧
      (transition_ticks enc (fade_to_screen enc s target) (21 + k)).transFadeOut = true ∧
      (transition_ticks enc (fade_to_screen enc s target) (21 + k)).currentScreen = target) ∧
    ((transition_ticks enc (fade_to_screen enc s target) (21 + 51)).onTransition = false ∧
      (transition_ticks enc (fade_to_screen enc s target) (21 + 51)).transAlpha = 0 ∧
      (transition_ticks enc (fade_to_screen enc s target) (21 + 51)).currentScreen = target) := by
  have hin := fade_in_ticks enc (fade_to_screen enc s target) rfl rfl
  have hswap := fade_in_swap enc (fade_to_screen enc s target) rfl rfl
  have hout := fade_out_ticks enc (transition_ticks enc (fade_to_screen enc s target) 21)
    (by rw [hswap]) (by rw [hswap])
  have hend := fade_out_end enc (transition_ticks enc (fade_to_screen enc s target) 21)
    (by rw [hswap]) (by rw [hswap])
  refine ⟨?_, ?_, ?_, ?_⟩
  · intro k hk
    rw [hin k (by omega)]
    simp [fade_to_screen]
  · rw [hswap]
    simp [fade_to_screen]
  · intro k hk
    rw [transition_ticks_add, hout k (by omega), hswap]
    simp [fade_to_screen]
  · rw [transition_ticks_add, hend, hswap]
    simp [fade_to_screen]

/-- From startup, a frame in which the logo reports finish code 1 followed by
`n ≤ 72` frames is `n` calls of `update_transition` on the fade to the title. -/
theorem logo_scenario (enc : GameScreen → Int) (c : Int) (n : Nat) (hn : n ≤ 21 + 51) :
    run_frames enc main_setup.1 (1 :: List.replicate n c) =
      transition_ticks enc (fade_to_screen enc main_setup.1 TITLE) n := by
  have hfirst : (update_draw_frame enc main_setup.1 1).1 =
      fade_to_screen enc main_setup.1 TITLE := by
    rw [show (update_draw_frame enc main_setup.1 1).1 = (frame_update enc main_setup.1 1).1
      from rfl, frame_update_idle enc main_setup.1 1 rfl]
    rfl
  obtain ⟨m1, _, m3, _⟩ := fade_schedule enc main_setup.1 TITLE
  rw [run_frames_cons, hfirst, run_frames_eq_ticks enc (List.replicate n c)]
  · rw [List.length_replicate]
  · intro k hk
    simp only [List.length_replicate] at hk
    by_cases hlt : k < 21
    · exact (m1 k hlt).2.1
    · have := (m3 (k - 21) (by omega)).1
      rwa [show 21 + (k - 21) = k by omega] at this

theorem onRamp_globals : OnRamp globals :=
  ⟨0, by omega, rfl⟩

theorem onRamp_fade_to_screen (enc : GameScreen → Int) (s : Game) (t : GameScreen) :
    OnRamp (fade_to_screen enc s t) :=
  ⟨0, by omega, rfl⟩

/-- One call of `update_transition` on the ramp: where it is on the ramp
decides the branch taken. -/
theorem update_transition_on_ramp (enc : GameScreen → Int) (s : Game) :
    (∀ k, k < 20 → s.transFadeOut = false → s.transAlpha = fade_in_alpha k →
      (update_transition enc s).1 = { s with transAlpha := fade_in_alpha (k + 1) }) ∧
    (s.transFadeOut = false → s.transAlpha = fade_in_alpha 20 →
      (update_transition enc s).1 =
        { s with transAlpha := f32_round 1 1, currentScreen := s.transToScreen,
                 transFadeOut := true }) ∧
    (∀ k, k < 50 → s.transFadeOut = true → s.transAlpha = fade_out_alpha k →
      (update_transition enc s).1 = { s with transAlpha := fade_out_alpha (k + 1) }) ∧
    (s.transFadeOut = true → s.transAlpha = fade_out_alpha 50 →
      (update_transition enc s).1 =
        { s with transAlpha := 0, transFadeOut := false, onTransition := false,
                 transFromScreen := -1, transToScreen := UNKNOWN }) := by
  refine ⟨?_, ?_, ?_, ?_⟩
  · intro k hk hf ha
    have hno := fade_in_below k hk
    simp only [update_transition, hf, ha, hno]
    simp [fade_in_alpha]
  · intro hf ha
    simp only [update_transition, hf, ha, fade_in_above]
    simp
  · intro k hk hf ha
    have hno := fade_out_above k hk
    simp only [update_transition, hf, ha, hno]
    simp [fade_out_alpha]
  · intro hf ha
    simp only [update_transition, hf, ha, fade_out_below]
    simp

theorem onRamp_update_transition (enc : GameScreen → Int) (s : Game) (h : OnRamp s) :
    OnRamp (update_transition enc s).1 := by
  obtain ⟨r1, r2, r3, r4⟩ := update_transition_on_ramp enc s
  unfold OnRamp at h
  cases hf : s.transFadeOut
  · simp only [hf] at h
    obtain ⟨k, hk, ha⟩ := h
    rcases Nat.lt_or_ge k 20 with hlt | hge
    · rw [r1 k hlt hf ha]
      simp only [OnRamp, hf]
      exact ⟨k + 1, by omega, rfl⟩
    · have hk20 : k = 20 := by omega
      subst hk20
      rw [r2 hf ha]
      simp only [OnRamp]
      exact ⟨0, by omega, rfl⟩
  · simp only [hf] at h
    obtain ⟨k, hk, ha⟩ := h
    rcases Nat.lt_or_ge k 50 with hlt | hge
    · rw [r3 k hlt hf ha]
      simp only [OnRamp, hf]
      exact ⟨k + 1, by omega, rfl⟩
    · have hk50 : k = 50 := by omega
      subst hk50
      rw [r4 hf ha]
      simp only [OnRamp]
      exact ⟨0, by omega, rfl⟩

theorem onRamp_range (s : Game) (h : OnRamp s) :
    0 ≤ s.transAlpha ∧ s.transAlpha ≤ 2 ^ 149 + 2 ^ 126 := by
  unfold OnRamp at h
  split_ifs at h <;> obtain ⟨k, hk, ha⟩ := h <;> rw [ha]
  · have := fade_out_alpha_range k (by omega)
    exact ⟨this.1, le_trans this.2 (by norm_num)⟩
  · exact fade_in_alpha_range k (by omega)

theorem f32_value_range (a : Int) (h0 : 0 ≤ a) (h1 : a ≤ 2 ^ 149 + 2 ^ 126) :
    0 ≤ f32_value a ∧ f32_value a ≤ 1 + 1 / 2 ^ 23 := by
  have c0 : (0 : ℚ) ≤ (a : ℚ) := by exact_mod_cast h0
  have c1 : (a : ℚ) ≤ 2 ^ 149 + 2 ^ 126 := by exact_mod_cast h1
  unfold f32_value
  constructor
  · positivity
  · rw [div_le_iff₀ (by positivity)]
    calc (a : ℚ) ≤ 2 ^ 149 + 2 ^ 126 := c1
      _ = (1 + 1 / 2 ^ 23) * 2 ^ 149 := by norm_num

theorem onRamp_frame (enc : GameScreen → Int) (s : Game) (c : Int) (h : OnRamp s) :
    OnRamp (update_draw_frame enc s c).1 := by
  show OnRamp (frame_update enc s c).1
  cases ht : s.onTransition
  · rw [frame_update_idle enc s c ht]
    cases transition_table s.currentScreen c with
    | none => exact h
    | some t => exact onRamp_fade_to_screen enc s t
  · rw [frame_update_active enc s c ht]
    exact onRamp_update_transition enc s h

theorem onRamp_run_frames (enc : GameScreen → Int) (codes : List Int) (s : Game)
    (h : OnRamp s) : OnRamp (run_frames enc s codes) := by
  induction codes generalizing s with
  | nil => exact h
  | cons c cs ih => exact ih _ (onRamp_frame enc s c h)

theorem onRamp_transition_ticks (enc : GameScreen → Int) (n : Nat) (s : Game)
    (h : OnRamp s) : OnRamp (transition_ticks enc s n) := by
  induction n generalizing s with
  | zero => exact h
  | succ n ih => exact ih _ (onRamp_update_transition enc s h)

theorem idleClear_frame (enc : GameScreen → Int) (s : Game) (c : Int) (h : IdleClear s) :
    IdleClear (update_draw_frame enc s c).1 := by
  show IdleClear (frame_update enc s c).1
  cases ht : s.onTransition
  · rw [frame_update_idle enc s c ht]
    cases transition_table s.currentScreen c with
    | none => exact h
    | some t =>
      intro hoff
      simp [fade_to_screen] at hoff
  · rw [frame_update_active enc s c ht]
    intro hoff
    cases hf : s.transFadeOut
    · by_cases hc : f32_add s.transAlpha (f32_round 5 100) > f32_round 101 100 <;>
        simp [update_transition, hf, hc, ht] at hoff
    · by_cases hc : f32_sub s.transAlpha (f32_round 2 100) < -(f32_round 1 100)
      · simp [update_transition, hf, hc]
      · simp [update_transition, hf, hc, ht] at hoff

theorem idleClear_run_frames (enc : GameScreen → Int) (codes : List Int) (s : Game)
    (h : IdleClear s) : IdleClear (run_frames enc s codes) := by
  induction codes generalizing s with
  | nil => exact h
  | cons c cs ih => exact ih _ (idleClear_frame enc s c h)

theorem frame_update_calls_no_rectangle (enc : GameScreen → Int) (s : Game) (c : Int) (a : Int) :
    Call.DrawRectangle a ∉ (frame_update enc s c).2 := by
  cases ht : s.onTransition
  · unfold frame_update
    cases s.currentScreen <;>
      simp only [ht, Bool.not_false, if_true] <;> (try split_ifs) <;> simp
  · rw [frame_update_active enc s c ht]
    unfold update_transition unload_switch_int
    cases s.transToScreen <;> simp only [init_switch] <;> split_ifs <;> simp

theorem frame_draw_rectangle (s : Game) (a : Int) (h : Call.DrawRectangle a ∈ frame_draw s) :
    a = s.transAlpha ∧ s.onTransition = true := by
  unfold frame_draw draw_transition at h
  cases hs : s.currentScreen <;> cases ht : s.onTransition <;>
    simp [hs, ht, draw_switch] at h <;> exact ⟨h, rfl⟩

theorem loaded_after_append (l : List GameScreen) (a b : List Call) :
    loaded_after l (a ++ b) = loaded_after (loaded_after l a) b := by
  induction a generalizing l with
  | nil => rfl
  | cons x xs ih => cases x <;> simp [loaded_after, ih]

theorem loaded_after_frame_draw (l : List GameScreen) (s : Game) :
    loaded_after l (frame_draw s) = l := by
  unfold frame_draw draw_transition
  cases s.currentScreen <;> cases s.onTransition <;> simp [draw_switch, loaded_after]

theorem loaded_after_frame (enc : GameScreen → Int) (l : List GameScreen) (s : Game) (c : Int) :
    loaded_after l (update_draw_frame enc s c).2 = loaded_after l (frame_update enc s c).2 := by
  simp only [update_draw_frame, loaded_after_append, loaded_after_frame_draw]
  rfl

theorem frame_update_idle_loaded (enc : GameScreen → Int) (l : List GameScreen) (s : Game)
    (c : Int) (h : s.onTransition = false) :
    loaded_after l (frame_update enc s c).2 = l := by
  unfold frame_update
  cases s.currentScreen <;>
    simp only [h, Bool.not_false, if_true] <;> (try split_ifs) <;> simp [loaded_after]

theorem transition_table_target (x : GameScreen) (c : Int) (t : GameScreen)
    (h : transition_table x c = some t) : t ≠ UNKNOWN := by
  cases x <;> simp only [transition_table] at h <;> (try split_ifs at h) <;>
    first
      | (cases h; decide)
      | cases h

theorem oneLoaded_frame (enc : GameScreen → Int) (hd : CaseLabelsDistinct enc) (s : Game)
    (l : List GameScreen) (c : Int) (h : OneLoaded enc s l) :
    OneLoaded enc (update_draw_frame enc s c).1 (loaded_after l (update_draw_frame enc s c).2) := by
  obtain ⟨hl, hcur, htr⟩ := h
  rw [loaded_after_frame]
  show OneLoaded enc (frame_update enc s c).1 _
  cases ht : s.onTransition
  · rw [frame_update_idle_loaded enc l s c ht, frame_update_idle enc s c ht]
    cases htab : transition_table s.currentScreen c with
    | none => exact ⟨hl, hcur, htr⟩
    | some t =>
      refine ⟨hl, hcur, fun _ _ => ⟨rfl, ?_⟩⟩
      exact transition_table_target _ _ _ htab
  · rw [frame_update_active enc s c ht]
    cases hf : s.transFadeOut
    · obtain ⟨hfrom, hto⟩ := htr ht hf
      by_cases hc : f32_add s.transAlpha (f32_round 5 100) > f32_round 101 100
      · have hcalls : (update_transition enc s).2 =
            [Call.unload_screen s.currentScreen, Call.init_screen s.transToScreen] := by
          simp [update_transition, hf, hc, hfrom, unload_switch_int_label enc hd _ hcur,
            init_switch_label _ hto]
        rw [hcalls, hl]
        refine ⟨?_, ?_, ?_⟩
        · simp [loaded_after, update_transition, hf, hc]
        · simpa [update_transition, hf, hc] using hto
        · intro _ hfo
          simp [update_transition, hf, hc] at hfo
      · refine ⟨?_, ?_, ?_⟩
        · simpa [loaded_after, update_transition, hf, hc] using hl
        · simpa [update_transition, hf, hc] using hcur
        · intro _ _
          simpa [update_transition, hf, hc] using And.intro hfrom hto
    · by_cases hc : f32_sub s.transAlpha (f32_round 2 100) < -(f32_round 1 100)
      · refine ⟨?_, ?_, ?_⟩
        · simpa [loaded_after, update_transition, hf, hc] using hl
        · simpa [update_transition, hf, hc] using hcur
        · intro hon
          simp [update_transition, hf, hc] at hon
      · refine ⟨?_, ?_, ?_⟩
        · simpa [loaded_after, update_transition, hf, hc] using hl
        · simpa [update_transition, hf, hc] using hcur
        · intro _ hfo
          simp [update_transition, hf, hc] at hfo

theorem oneLoaded_run_frames (enc : GameScreen → Int) (hd : CaseLabelsDistinct enc)
    (codes : List Int) (s : Game) (l : List GameScreen) (h : OneLoaded enc s l) :
    OneLoaded enc (run_frames_loaded enc s l codes).1 (run_frames_loaded enc s l codes).2 := by
  induction codes generalizing s l with
  | nil => exact h
  | cons c cs ih => exact ih _ _ (oneLoaded_frame enc hd s l c h)

theorem f32_value_one : f32_value (f32_round 1 1) = 1 := by
  rw [f32_literals.2.2.1]
  norm_num [f32_value]

theorem f32_value_fade_in_last : f32_value (fade_in_alpha 20) = 1 + 1 / 2 ^ 23 := by
  rw [fade_in_alpha_last]
  norm_num [f32_value]

/-! ## The director's frame -/

/-- C1: with no transition active, the state after a frame is the one the
table of the spec prescribes for the current screen and the finish code: a
request `fade_to_screen` for the target when the table has one, the unchanged
state otherwise. -/
theorem update_draw_frame_follows_table (enc : GameScreen → Int) (s : Game) (code : Int)
    (h : s.onTransition = false) :
    (update_draw_frame enc s code).1 =
      (match transition_table s.currentScreen code with
       | some t => fade_to_screen enc s t
       | none => s) :=
  frame_update_idle enc s code h

theorem update_draw_frame_follows_table_witness :
    title_sample.onTransition = false ∧
      (update_draw_frame enum_codes title_sample 2).1 =
        fade_to_screen enum_codes title_sample GAMEPLAY :=
  ⟨rfl, update_draw_frame_follows_table enum_codes title_sample 2 rfl⟩

/-- C2: with a transition active, a frame changes the state as one call of
`update_transition` does, its calls are the music update, the calls of
`update_transition` and the draw half, and no screen's update or finish
function is among them. -/
theorem update_draw_frame_delegates (enc : GameScreen → Int) (s : Game) (code : Int)
    (h : s.onTransition = true) :
    (update_draw_frame enc s code).1 = (update_transition enc s).1 ∧
      (update_draw_frame enc s code).2 =
        [Call.UpdateMusicStream] ++ (update_transition enc s).2
          ++ frame_draw (update_transition enc s).1 ∧
      ∀ x : GameScreen, Call.update_screen x ∉ (update_draw_frame enc s code).2 ∧
        Call.finish_screen x ∉ (update_draw_frame enc s code).2 := by
  have hu := frame_update_active enc s code h
  refine ⟨by simp [update_draw_frame, hu], by simp [update_draw_frame, hu], ?_⟩
  intro x
  have h1 := update_transition_calls_no_update enc s x
  have h2 := frame_draw_calls_no_update (update_transition enc s).1 x
  simp only [update_draw_frame, hu, List.mem_append, List.mem_singleton, not_or]
  exact ⟨⟨⟨by simp, h1.1⟩, h2.1⟩, ⟨⟨by simp, h1.2⟩, h2.2⟩⟩

theorem update_draw_frame_delegates_witness :
    in_flight_sample.onTransition = true ∧
      (update_draw_frame enum_codes in_flight_sample 1).1 =
        (update_transition enum_codes in_flight_sample).1 ∧
      ∀ x : GameScreen,
        Call.update_screen x ∉ (update_draw_frame enum_codes in_flight_sample 1).2 ∧
        Call.finish_screen x ∉ (update_draw_frame enum_codes in_flight_sample 1).2 :=
  have h := update_draw_frame_delegates enum_codes in_flight_sample 1 rfl
  ⟨rfl, h.1, h.2.2⟩

/-! ## The swap -/

/-- C4: in the binary32 arithmetic of the code, from a fresh
`fade_to_screen` the fade-in completes at the 21st call of
`update_transition` and not earlier (after it `transFadeOut` holds, alpha is 1
and the target is current), and the fade-out at the 51st further call and not
earlier (after it no transition is active and alpha is 0).  From startup, the
logo reporting finish code 1 leads to the title being current in the fade-out
phase after 21 more frames, and to an idle transition with alpha 0 after 51
further ones.  The counts are those of the steps and thresholds taken as exact
rationals: 21 is the first multiple of 0.05 above 1.01 and 51 the first
multiple of 0.02 that takes 1 below -0.01. -/
theorem fade_takes_21_then_51_ticks (enc : GameScreen → Int) (s : Game)
    (target : GameScreen) (c : Int) :
    (∀ k : Fin 21,
      (transition_ticks enc (fade_to_screen enc s target) k).transFadeOut = false ∧
      (transition_ticks enc (fade_to_screen enc s target) k).onTransition = true ∧
      (transition_ticks enc (fade_to_screen enc s target) k).currentScreen = s.currentScreen) ∧
    ((transition_ticks enc (fade_to_screen enc s target) 21).transFadeOut = true ∧
      (transition_ticks enc (fade_to_screen enc s target) 21).transAlpha = f32_round 1 1 ∧
      (transition_ticks enc (fade_to_screen enc s target) 21).currentScreen = target ∧
      (transition_ticks enc (fade_to_screen enc s target) 21).onTransition = true) ∧
    (∀ k : Fin 51,
      (transition_ticks enc (fade_to_screen enc s target) (21 + k)).onTransition = true ∧
      (transition_ticks enc (fade_to_screen enc s target) (21 + k)).transFadeOut = true ∧
      (transition_ticks enc (fade_to_screen enc s target) (21 + k)).currentScreen = target) ∧
    ((transition_ticks enc (fade_to_screen enc s target) (21 + 51)).onTransition = false ∧
      (transition_ticks enc (fade_to_screen enc s target) (21 + 51)).transAlpha = 0 ∧
      (transition_ticks enc (fade_to_screen enc s target) (21 + 51)).currentScreen = target) ∧
    ((run_frames enc main_setup.1 (1 :: List.replicate 21 c)).currentScreen = TITLE ∧
      (run_frames enc main_setup.1 (1 :: List.replicate 21 c)).transFadeOut = true ∧
      (run_frames enc main_setup.1 (1 :: List.replicate 21 c)).onTransition = true) ∧
    ((run_frames enc main_setup.1 (1 :: List.replicate (21 + 51) c)).onTransition = false ∧
      (run_frames enc main_setup.1 (1 :: List.replicate (21 + 51) c)).transAlpha = 0 ∧
      (run_frames enc main_setup.1 (1 :: List.replicate (21 + 51) c)).currentScreen = TITLE) ∧
    ((∀ k : Fin 21, (k : ℚ) * 0.05 ≤ 1.01) ∧ (21 : ℚ) * 0.05 > 1.01 ∧
      (∀ k : Fin 51, ¬ (1 - (k : ℚ) * 0.02 < -0.01)) ∧ 1 - (51 : ℚ) * 0.02 < -0.01) := by
  obtain ⟨g1, g2, g3, g4⟩ := fade_schedule enc s target
  obtain ⟨_, m2, _, m4⟩ := fade_schedule enc main_setup.1 TITLE
  refine ⟨fun k => g1 k k.isLt, g2, fun k => g3 k k.isLt, g4, ?_, ?_, ?_⟩
  · rw [logo_scenario enc c 21 (by omega)]
    exact ⟨m2.2.2.1, m2.1, m2.2.2.2⟩
  · rw [logo_scenario enc c (21 + 51) (le_refl _)]
    exact m4
  · refine ⟨fun k => ?_, by norm_num, fun k => ?_, by norm_num⟩
    · have hk : (k : ℚ) ≤ 20 := by exact_mod_cast (by omega : (k : Nat) ≤ 20)
      norm_num
      linarith
    · have hk : (k : ℚ) ≤ 50 := by exact_mod_cast (by omega : (k : Nat) ≤ 50)
      norm_num
      linarith

/-! ## Invariants of the running loop -/

/-- C7: in every state the main loop reaches from the initial globals, for any
finish codes, no active transition implies that alpha is 0, that
`transFromScreen` is the sentinel -1 and that `transToScreen` is `UNKNOWN`. -/
theorem idle_transition_is_cleared (enc : GameScreen → Int) (codes : List Int) :
    (run_frames enc globals codes).onTransition = false →
      (run_frames enc globals codes).transAlpha = 0 ∧
      (run_frames enc globals codes).transFromScreen = -1 ∧
      (run_frames enc globals codes).transToScreen = UNKNOWN :=
  idleClear_run_frames enc codes globals (fun _ => ⟨rfl, rfl, rfl⟩)

theorem idle_transition_is_cleared_witness :
    (run_frames enum_codes globals (1 :: List.replicate (21 + 51) 0)).onTransition = false ∧
      (run_frames enum_codes globals (1 :: List.replicate (21 + 51) 0)).transAlpha = 0 ∧
      (run_frames enum_codes globals (1 :: List.replicate (21 + 51) 0)).transFromScreen = -1 ∧
      (run_frames enum_codes globals (1 :: List.replicate (21 + 51) 0)).transToScreen = UNKNOWN :=
  have hoff : (run_frames enum_codes globals (1 :: List.replicate (21 + 51) 0)).onTransition
      = false := by
    rw [show globals = main_setup.1 from rfl, logo_scenario enum_codes 0 (21 + 51) (le_refl _)]
    exact (fade_schedule enum_codes main_setup.1 TITLE).2.2.2.1
  ⟨hoff, idle_transition_is_cleared enum_codes (1 :: List.replicate (21 + 51) 0) hoff⟩

/-- C8, as stated, fails: twenty binary32 additions of `0.05f` leave alpha at
1 + 2^-23, still in the fade-in phase, and the next call, the one that clamps,
lowers it to 1. -/
theorem alpha_drops_at_fade_in_clamp :
    (transition_ticks enum_codes (fade_to_screen enum_codes globals TITLE) 20).transFadeOut
        = false ∧
      (update_transition enum_codes
          (transition_ticks enum_codes (fade_to_screen enum_codes globals TITLE) 20)).1.transAlpha <
        (transition_ticks enum_codes (fade_to_screen enum_codes globals TITLE) 20).transAlpha := by
  decide

/-- C8, amended: in every state reached from a fresh `fade_to_screen` by
calls of `update_transition`, a call in the fade-in phase that does not clamp
does not lower alpha; the call that clamps finds alpha at 1 + 2^-23 and sets
it to 1; a call in the fade-out phase, the ending call included, does not
raise alpha. -/
theorem alpha_monotone_in_phase (enc : GameScreen → Int) (s : Game) (target : GameScreen)
    (n : Nat) :
    ((transition_ticks enc (fade_to_screen enc s target) n).transFadeOut = false →
      ¬ (f32_add (transition_ticks enc (fade_to_screen enc s target) n).transAlpha
          (f32_round 5 100) > f32_round 101 100) →
      (transition_ticks enc (fade_to_screen enc s target) n).transAlpha ≤
        (update_transition enc
          (transition_ticks enc (fade_to_screen enc s target) n)).1.transAlpha) ∧
    ((transition_ticks enc (fade_to_screen enc s target) n).transFadeOut = false →
      f32_add (transition_ticks enc (fade_to_screen enc s target) n).transAlpha
          (f32_round 5 100) > f32_round 101 100 →
      f32_value (transition_ticks enc (fade_to_screen enc s target) n).transAlpha
          = 1 + 1 / 2 ^ 23 ∧
        f32_value (update_transition enc
          (transition_ticks enc (fade_to_screen enc s target) n)).1.transAlpha = 1) ∧
    ((transition_ticks enc (fade_to_screen enc s target) n).transFadeOut = true →
      (update_transition enc
          (transition_ticks enc (fade_to_screen enc s target) n)).1.transAlpha ≤
        (transition_ticks enc (fade_to_screen enc s target) n).transAlpha) := by
  have hg := onRamp_transition_ticks enc n _ (onRamp_fade_to_screen enc s target)
  generalize transition_ticks enc (fade_to_screen enc s target) n = st at hg
  obtain ⟨r1, r2, r3, r4⟩ := update_transition_on_ramp enc st
  unfold OnRamp at hg
  refine ⟨?_, ?_, ?_⟩
  · intro hf hc
    simp only [hf] at hg
    obtain ⟨k, hk, ha⟩ := hg
    rcases Nat.lt_or_ge k 20 with hlt | hge
    · rw [r1 k hlt hf ha, ha]
      exact fade_in_alpha_mono k hlt
    · have hk20 : k = 20 := by omega
      subst hk20
      rw [ha] at hc
      exact absurd fade_in_above hc
  · intro hf hc
    simp only [hf] at hg
    obtain ⟨k, hk, ha⟩ := hg
    rcases Nat.lt_or_ge k 20 with hlt | hge
    · rw [ha] at hc
      exact absurd hc (fade_in_below k hlt)
    · have hk20 : k = 20 := by omega
      subst hk20
      rw [r2 hf ha, ha]
      exact ⟨f32_value_fade_in_last, f32_value_one⟩
  · intro hf
    simp only [hf] at hg
    obtain ⟨k, hk, ha⟩ := hg
    rcases Nat.lt_or_ge k 50 with hlt | hge
    · rw [r3 k hlt hf ha, ha]
      exact fade_out_alpha_mono k hlt
    · have hk50 : k = 50 := by omega
      subst hk50
      rw [r4 hf ha, ha]
      exact (fade_out_alpha_range 50 (by omega)).1

theorem alpha_monotone_in_phase_witness :
    ((transition_ticks enum_codes (fade_to_screen enum_codes globals TITLE) 0).transFadeOut
        = false ∧
      ¬ (f32_add (transition_ticks enum_codes (fade_to_screen enum_codes globals TITLE) 0).transAlpha
          (f32_round 5 100) > f32_round 101 100) ∧
      (transition_ticks enum_codes (fade_to_screen enum_codes globals TITLE) 0).transAlpha ≤
        (update_transition enum_codes
          (transition_ticks enum_codes (fade_to_screen enum_codes globals TITLE) 0)).1.transAlpha) ∧
    ((transition_ticks enum_codes (fade_to_screen enum_codes globals TITLE) 20).transFadeOut
        = false ∧
      f32_add (transition_ticks enum_codes (fade_to_screen enum_codes globals TITLE) 20).transAlpha
          (f32_round 5 100) > f32_round 101 100 ∧
      f32_value (transition_ticks enum_codes (fade_to_screen enum_codes globals TITLE) 20).transAlpha
          = 1 + 1 / 2 ^ 23 ∧
      f32_value (update_transition enum_codes
          (transition_ticks enum_codes (fade_to_screen enum_codes globals TITLE) 20)).1.transAlpha
          = 1) ∧
    ((transition_ticks enum_codes (fade_to_screen enum_codes globals TITLE) 21).transFadeOut
        = true ∧
      (update_transition enum_codes
          (transition_ticks enum_codes (fade_to_screen enum_codes globals TITLE) 21)).1.transAlpha ≤
        (transition_ticks enum_codes (fade_to_screen enum_codes globals TITLE) 21).transAlpha) :=
  ⟨⟨rfl, by decide, (alpha_monotone_in_phase enum_codes globals TITLE 0).1 rfl (by decide)⟩,
   ⟨by decide, by decide,
    (alpha_monotone_in_phase enum_codes globals TITLE 20).2.1 (by decide) (by decide)⟩,
   ⟨by decide, (alpha_monotone_in_phase enum_codes globals TITLE 21).2.2 (by decide)⟩⟩

/-- C9, as stated, fails: in the frame of the twentieth fade-in step of the
first transition alpha is above 1 (it is 1 + 2^-23) after the update step, and
that value is the opacity of the rectangle the frame draws. -/
theorem alpha_above_one_is_drawn :
    f32_round 1 1 <
        (update_draw_frame enum_codes
          (run_frames enum_codes globals (1 :: List.replicate 19 0)) 0).1.transAlpha ∧
      Call.DrawRectangle
          (update_draw_frame enum_codes
            (run_frames enum_codes globals (1 :: List.replicate 19 0)) 0).1.transAlpha ∈
        (update_draw_frame enum_codes
          (run_frames enum_codes globals (1 :: List.replicate 19 0)) 0).2 := by
  decide

/-- C9, amended: in every state the main loop reaches from the initial
globals, for any finish codes, the binary32 alpha lies between 0 and
1 + 2^-23, and the opacity of every rectangle that a frame draws for the
transition is the alpha left by that frame's update step, in the same range. -/
theorem alpha_within_unit_range (enc : GameScreen → Int) (codes : List Int) (code : Int) :
    (0 ≤ f32_value (run_frames enc globals codes).transAlpha ∧
      f32_value (run_frames enc globals codes).transAlpha ≤ 1 + 1 / 2 ^ 23) ∧
    (0 ≤ f32_value (update_draw_frame enc (run_frames enc globals codes) code).1.transAlpha ∧
      f32_value (update_draw_frame enc (run_frames enc globals codes) code).1.transAlpha
        ≤ 1 + 1 / 2 ^ 23) ∧
    ∀ a : Int,
      Call.DrawRectangle a ∈ (update_draw_frame enc (run_frames enc globals codes) code).2 →
        a = (update_draw_frame enc (run_frames enc globals codes) code).1.transAlpha ∧
        0 ≤ f32_value a ∧ f32_value a ≤ 1 + 1 / 2 ^ 23 := by
  have hg := onRamp_run_frames enc codes globals onRamp_globals
  have hg1 := onRamp_frame enc _ code hg
  have b0 := onRamp_range _ hg
  have b1 := onRamp_range _ hg1
  refine ⟨f32_value_range _ b0.1 b0.2, f32_value_range _ b1.1 b1.2, ?_⟩
  intro a ha
  have hmem : Call.DrawRectangle a ∈
      frame_draw (update_draw_frame enc (run_frames enc globals codes) code).1 := by
    simp only [update_draw_frame, List.mem_append, List.mem_singleton] at ha
    rcases ha with (ha | ha) | ha
    · cases ha
    · exact absurd ha (frame_update_calls_no_rectangle enc _ code a)
    · exact ha
  have heq := (frame_draw_rectangle _ a hmem).1
  rw [heq]
  exact ⟨rfl, f32_value_range _ b1.1 b1.2⟩

theorem alpha_within_unit_range_witness :
    Call.DrawRectangle (f32_round 5 100) ∈
        (update_draw_frame enum_codes (run_frames enum_codes globals [1]) 0).2 ∧
      (f32_round 5 100 =
          (update_draw_frame enum_codes (run_frames enum_codes globals [1]) 0).1.transAlpha ∧
        0 ≤ f32_value (f32_round 5 100) ∧ f32_value (f32_round 5 100) ≤ 1 + 1 / 2 ^ 23) :=
  have hmem : Call.DrawRectangle (f32_round 5 100) ∈
      (update_draw_frame enum_codes (run_frames enum_codes globals [1]) 0).2 := by
    decide
  ⟨hmem, (alpha_within_unit_range enum_codes [1] 0).2.2 (f32_round 5 100) hmem⟩

/-- C5: starting from the setup of `main` (the logo current and initialised,
no transition), after every frame and for every sequence of finish codes, the
screens initialised and not yet unloaded are exactly one, the current screen;
the numbering of the screen labels only has to keep the five `case` labels
apart. -/
theorem exactly_one_screen_loaded (enc : GameScreen → Int) (hd : CaseLabelsDistinct enc)
    (codes : List Int) :
    (run_frames_loaded enc main_setup.1 (loaded_after [] main_setup.2) codes).2 =
      [(run_frames_loaded enc main_setup.1 (loaded_after [] main_setup.2) codes).1.currentScreen] :=
  (oneLoaded_run_frames enc hd codes main_setup.1 (loaded_after [] main_setup.2)
    ⟨rfl, by decide, fun h => by cases h⟩).1

theorem exactly_one_screen_loaded_witness :
    CaseLabelsDistinct enum_codes ∧
      (run_frames_loaded enum_codes main_setup.1 (loaded_after [] main_setup.2)
          (1 :: List.replicate 21 0)).2 =
        [(run_frames_loaded enum_codes main_setup.1 (loaded_after [] main_setup.2)
          (1 :: List.replicate 21 0)).1.currentScreen] :=
  ⟨enum_codes_distinct,
   exactly_one_screen_loaded enum_codes enum_codes_distinct (1 :: List.replicate 21 0)⟩

/-! ## Requests during a transition, and the immediate jump -/

/-- C10, as stated, fails: from a state whose current screen is `UNKNOWN`,
`jump_to_screen` to the logo makes the init call only and no unload call. -/
theorem jump_to_screen_from_unknown_unloads_nothing :
    (jump_to_screen unknown_sample LOGO).2 = [Call.init_screen LOGO] ∧
      ∀ x : GameScreen, Call.unload_screen x ∉ (jump_to_screen unknown_sample LOGO).2 := by
  refine ⟨rfl, fun x => ?_⟩
  simp [jump_to_screen, unknown_sample, unload_switch, init_switch]

/-- C10, amended: from every state whose current screen is not `UNKNOWN` and
for every target other than `UNKNOWN`, `jump_to_screen` makes exactly two
calls, the unload of the screen that was current and then the init of the
target, makes the target current and leaves the five transition variables
alone; from the initial globals `jump_to_screen` to the logo ends with the
logo current and no transition active. -/
theorem jump_to_screen_one_unload_one_init (s : Game) (screen : GameScreen)
    (hcur : s.currentScreen ≠ UNKNOWN) (hscreen : screen ≠ UNKNOWN) :
    (jump_to_screen s screen).2 =
        [Call.unload_screen s.currentScreen, Call.init_screen screen] ∧
      (jump_to_screen s screen).1.currentScreen = screen ∧
      (jump_to_screen s screen).1.onTransition = s.onTransition ∧
      (jump_to_screen s screen).1.transFadeOut = s.transFadeOut ∧
      (jump_to_screen s screen).1.transAlpha = s.transAlpha ∧
      (jump_to_screen s screen).1.transFromScreen = s.transFromScreen ∧
      (jump_to_screen s screen).1.transToScreen = s.transToScreen ∧
      (jump_to_screen globals LOGO).1.currentScreen = LOGO ∧
      (jump_to_screen globals LOGO).1.onTransition = false := by
  refine ⟨?_, rfl, rfl, rfl, rfl, rfl, rfl, rfl, rfl⟩
  simp [jump_to_screen, unload_switch_label _ hcur, init_switch_label _ hscreen]

theorem jump_to_screen_one_unload_one_init_witness :
    globals.currentScreen ≠ UNKNOWN ∧ LOGO ≠ UNKNOWN ∧
      (jump_to_screen globals LOGO).2 = [Call.unload_screen LOGO, Call.init_screen LOGO] ∧
      (jump_to_screen globals LOGO).1.currentScreen = LOGO ∧
      (jump_to_screen globals LOGO).1.onTransition = false :=
  have h := jump_to_screen_one_unload_one_init globals LOGO (by decide) (by decide)
  ⟨by decide, by decide, h.1, h.2.1, h.2.2.2.2.2.2.2.2⟩


end RaylibGame
